import Mathlib

/-!
Shallow embedding of the GMShoot shot-group analysis engine
(`src/analysis_engine/{models,statistics,metrics}.py`) and proofs about it.

Modelling conventions:
* Python floats that carry coordinates, thresholds, radii and timestamps are
  modelled as exact rationals (`ℚ`); quantities produced by square roots
  (Euclidean distances, standard deviations) live in `ℝ` via `Real.sqrt`.
* Python exceptions are modelled by `Except Err`: `raise` is `Except.error` /
  `throw`, and the `try ... except Exception as e: raise AnalysisError(...)`
  block that ends every calculator method is the `pyTry` wrapper below.
* `numpy` / `scipy` library calls are modelled from their documented
  behaviour (`np.mean`, `np.std`, `np.percentile` with linear interpolation,
  `scipy.spatial.ConvexHull` on 2-D input, `scipy.stats.linregress`).
-/

namespace GMS

/-- Error kinds, from `src/utils/exceptions.py` (archived copy in the repo):
`AnalysisError` and `InsufficientDataError` are distinct sibling subclasses of
`GMShootError`; neither is a subclass of the other. -/
inductive Err
  | insufficientData
  | analysisError
deriving DecidableEq

/-- The `try: ... except Exception as e: raise AnalysisError(...)` pattern that
wraps the body of every calculator method: any error raised inside the body —
including a typed `InsufficientDataError` — escapes as a fresh `AnalysisError`. -/
def pyTry {α : Type} : Except Err α → Except Err α
  | .ok v => .ok v
  | .error _ => .error .analysisError

/-- Embeds `models.Shot`: a detection with coordinates and provenance metadata.
`timestamp` models the optional `datetime` as a rational time value (datetime
objects are totally ordered and always truthy). -/
structure Shot where
  x : ℚ
  y : ℚ
  confidence : ℚ
  frame_index : Option ℤ
  timestamp : Option ℚ
  radius : ℚ

instance : Inhabited Shot := ⟨⟨0, 0, 0, none, none, 5⟩⟩

/-- Embeds `models.Point`. -/
structure Point where
  x : ℚ
  y : ℚ

/-- Euclidean distance between coordinates, `sqrt((x1-x2)**2 + (y1-y2)**2)`;
used by `Shot.distance_to`, `Point.distance_to` and `np.linalg.norm(coord - center)`. -/
noncomputable def distXY (x1 y1 x2 y2 : ℚ) : ℝ :=
  Real.sqrt (((x1 : ℝ) - (x2 : ℝ)) ^ 2 + ((y1 : ℝ) - (y2 : ℝ)) ^ 2)

/-- Embeds `Shot.distance_to`. -/
noncomputable def Shot.distance_to (s o : Shot) : ℝ := distXY s.x s.y o.x o.y

/-- Embeds `np.mean` of a list of rationals (Python float mean, exact). -/
def meanQ (l : List ℚ) : ℚ := l.sum / l.length

/-- Population variance (`ddof = 0`), the square of `np.std`. -/
def varQ (l : List ℚ) : ℚ := meanQ (l.map (fun v => (v - meanQ l) ^ 2))

/-- Embeds `np.mean` of a list of reals. -/
noncomputable def meanR (l : List ℝ) : ℝ := l.sum / l.length

/-- Embeds `np.std` (population) of a list of reals. -/
noncomputable def stdR (l : List ℝ) : ℝ :=
  Real.sqrt (meanR (l.map (fun v => (v - meanR l) ^ 2)))

/-- Embeds `np.max` of a non-empty list of reals (the fold start is the head). -/
noncomputable def maxR (l : List ℝ) : ℝ := l.foldl max (l.headD 0)

/-- Embeds `np.min` of a non-empty list of reals. -/
noncomputable def minR (l : List ℝ) : ℝ := l.foldl min (l.headD 0)

/-- The coordinate array `np.array([[shot.x, shot.y] for shot in shots])`. -/
def coordsOf (shots : List Shot) : List (ℚ × ℚ) := shots.map (fun s => (s.x, s.y))

/-- Embeds `np.mean(coords, axis=0)`: the centroid of the shots. -/
def centroid (shots : List Shot) : ℚ × ℚ :=
  (meanQ (shots.map Shot.x), meanQ (shots.map Shot.y))

/-- A single shot's distance to the centroid of a group: the per-shot metric
the deviation-based, quartile-based and ratio-based detectors compute. -/
noncomputable def centroidDistance (shots : List Shot) (s : Shot) : ℝ :=
  distXY s.x s.y (centroid shots).1 (centroid shots).2

/-- The per-shot distances `[np.linalg.norm(coord - center) for coord in coords]`
with `center` the centroid. -/
noncomputable def distancesToCentroid (shots : List Shot) : List ℝ :=
  shots.map (centroidDistance shots)

/-- Embeds `np.percentile(l, q)` with the default linear interpolation:
position `(n-1) * q/100` between the sorted order statistics. -/
noncomputable def sortR (l : List ℝ) : List ℝ := l.mergeSort (fun a b => decide (a ≤ b))

/-- Embeds `np.percentile` (linear interpolation, `q` in percent). -/
noncomputable def percentileR (l : List ℝ) (q : ℚ) : ℝ :=
  let s := sortR l
  let pos : ℚ := ((l.length : ℚ) - 1) * q / 100
  let k : ℕ := (⌊pos⌋).toNat
  let frac : ℚ := pos - (⌊pos⌋ : ℚ)
  s.getD k 0 + (frac : ℝ) * (s.getD (k + 1) (s.getD k 0) - s.getD k 0)

/-! ## `statistics.py` — StatisticsCalculator -/

/-- Embeds `StatisticsCalculator.calculate_mean_point_of_impact`. -/
def calculate_mean_point_of_impact (shots : List Shot) : Except Err Point :=
  pyTry <|
    if shots.length = 0 then .error .insufficientData
    else .ok ⟨meanQ (shots.map Shot.x), meanQ (shots.map Shot.y)⟩

/-- Embeds `scipy.spatial.distance.pdist`: distances over all unordered pairs. -/
noncomputable def pdist : List Shot → List ℝ
  | [] => []
  | s :: rest => rest.map (fun o => s.distance_to o) ++ pdist rest

/-- Embeds `StatisticsCalculator.calculate_extreme_spread`. -/
noncomputable def calculate_extreme_spread (shots : List Shot) : Except Err ℝ :=
  pyTry <|
    if shots.length < 2 then .error .insufficientData
    else .ok (maxR (pdist shots))

/-- Embeds `StatisticsCalculator.calculate_mean_radius` (`center=None` means
"use the MPI", as in the Python default argument). -/
noncomputable def calculate_mean_radius (shots : List Shot) (center : Option Point) :
    Except Err ℝ :=
  pyTry (do
    if shots.length = 0 then throw Err.insufficientData
    let c ← match center with
      | some c => pure c
      | none => calculate_mean_point_of_impact shots
    pure (meanR (shots.map (fun s => distXY s.x s.y c.x c.y))))

/-- Embeds `StatisticsCalculator.calculate_standard_deviations` (`np.std`, population). -/
noncomputable def calculate_standard_deviations (shots : List Shot) :
    Except Err (ℝ × ℝ) :=
  pyTry <|
    if shots.length = 0 then .error .insufficientData
    else .ok (Real.sqrt ((varQ (shots.map Shot.x) : ℚ) : ℝ),
              Real.sqrt ((varQ (shots.map Shot.y) : ℚ) : ℝ))

/-- Modelled from scipy: `stats.t.ppf`, the Student-t quantile. It is total on
every input this engine supplies; no claim depends on its numeric value, so the
value is left unspecified (constantly zero). -/
def t_ppf (_p : ℚ) (_df : ℕ) : ℝ := 0

/-- Embeds `scipy.stats.sem`: sample standard error of the mean (`ddof = 1`). -/
noncomputable def semQ (l : List ℚ) : ℝ :=
  Real.sqrt (((l.map (fun v => (v - meanQ l) ^ 2)).sum / ((l.length : ℚ) - 1) : ℚ)) /
    Real.sqrt (l.length : ℝ)

/-- Embeds `StatisticsCalculator.calculate_confidence_intervals`
(per-axis t-intervals; returns the `x` and `y` interval). -/
noncomputable def calculate_confidence_intervals (shots : List Shot) (confidence : ℚ) :
    Except Err ((ℝ × ℝ) × (ℝ × ℝ)) :=
  pyTry <|
    if shots.length < 3 then .error .insufficientData
    else
      let alpha := 1 - confidence
      let tc := t_ppf (1 - alpha / 2) (shots.length - 1)
      let mx : ℝ := (meanQ (shots.map Shot.x) : ℝ)
      let my : ℝ := (meanQ (shots.map Shot.y) : ℝ)
      let marginx := tc * semQ (shots.map Shot.x)
      let marginy := tc * semQ (shots.map Shot.y)
      .ok ((mx - marginx, mx + marginx), (my - marginy, my + marginy))

/-- 2-D cross product `(a - o) × (b - o)`. -/
def cross (o a b : ℚ × ℚ) : ℚ :=
  (a.1 - o.1) * (b.2 - o.2) - (a.2 - o.2) * (b.1 - o.1)

/-- Modelled from scipy: Qhull fails ("initial simplex is flat") exactly when
the input has no three affinely independent points. -/
def degenerate (coords : List (ℚ × ℚ)) : Bool :=
  coords.all fun a => coords.all fun b => coords.all fun c => cross a b c == 0

/-- Modelled from scipy: the `simplices` of a 2-D `ConvexHull` are its edges;
we take every ordered pair of distinct input points such that the whole point
set lies (weakly) on one side of the line through them. -/
def hullEdges (coords : List (ℚ × ℚ)) : List ((ℚ × ℚ) × (ℚ × ℚ)) :=
  ((coords.map (fun a => coords.map (fun b => (a, b)))).flatten).filter fun e =>
    decide (e.1 ≠ e.2) &&
      ((coords.all fun c => decide (0 ≤ cross e.1 e.2 c)) ||
       (coords.all fun c => decide (cross e.1 e.2 c ≤ 0)))

/-- Modelled from scipy: `ConvexHull(coords)` in 2-D; raises `QhullError` when
fewer than three points are supplied or the point set is flat (degenerate). -/
def ConvexHullQ (coords : List (ℚ × ℚ)) :
    Except Unit (List ((ℚ × ℚ) × (ℚ × ℚ))) :=
  if coords.length < 3 ∨ degenerate coords then .error () else .ok (hullEdges coords)

/-- Distance between two rational points. -/
noncomputable def distPP (a b : ℚ × ℚ) : ℝ := distXY a.1 a.2 b.1 b.2

/-- Embeds `hull.area` of a 2-D scipy hull (for 2-D input, scipy's `.area` is the hull
perimeter): the sum of the edge lengths. Its numeric value plays no role in any
claim below, only whether the computation succeeds. -/
noncomputable def hullArea (edges : List ((ℚ × ℚ) × (ℚ × ℚ))) : ℝ :=
  (edges.map fun e => distPP e.1 e.2).sum

/-- Embeds `StatisticsCalculator.calculate_convex_hull_area`. The `QhullError` raised
by `ConvexHull` on degenerate input is an untyped library error; both it and
the `InsufficientDataError` are converted by the trailing handler. -/
noncomputable def calculate_convex_hull_area (shots : List Shot) : Except Err ℝ :=
  pyTry (do
    if shots.length < 3 then throw Err.insufficientData
    match ConvexHullQ (coordsOf shots) with
    | .error _ => throw Err.analysisError
    | .ok edges => pure (hullArea edges))

/-! ## `metrics.py` — SOTAMetricsCalculator -/

/-- Embeds `SOTAMetricsCalculator._calculate_shot_score`: the scan over
`enumerate(ring_radii)`, carrying the running index. -/
noncomputable def shotScoreGo (d : ℝ) (n : ℕ) : ℕ → List ℚ → ℤ
  | _, [] => (n : ℤ) + 1
  | i, r :: rest => if d ≤ (r : ℝ) then (n : ℤ) - (i : ℤ) else shotScoreGo d n (i + 1) rest

/-- Embeds `SOTAMetricsCalculator._calculate_shot_score`: first ring (smallest index
`i`) with `distance <= radius` scores `len(ring_radii) - i`; otherwise
`len(ring_radii) + 1` (the miss value). -/
noncomputable def calculate_shot_score (distance : ℝ) (ring_radii : List ℚ) : ℤ :=
  shotScoreGo distance ring_radii.length 0 ring_radii

/-- Embeds `np.max` of a non-empty list of integers. -/
def maxZ (l : List ℤ) : ℤ := l.foldl max (l.headD 0)

/-- Embeds `np.min` of a non-empty list of integers. -/
def minZ (l : List ℤ) : ℤ := l.foldl min (l.headD 0)

/-- Embeds `hit_distribution[i] += 1`. -/
def bump (h : List ℕ) (i : ℕ) : List ℕ := h.set i (h.getD i 0 + 1)

/-- The scoring report dictionary built by `calculate_scoring_metrics`. -/
structure ScoringMetrics where
  total_score : ℤ
  average_score : ℝ
  max_score : ℤ
  min_score : ℤ
  score_std : ℝ
  shot_scores : List ℤ
  hit_distribution : List ℕ

/-- Embeds `SOTAMetricsCalculator.calculate_scoring_metrics`. The histogram update is
`hit_distribution[score - 1] += 1` for `score <= len(ring_radii)` and
`hit_distribution[-1] += 1` (the trailing miss bucket) otherwise. -/
noncomputable def calculate_scoring_metrics (shots : List Shot) (target_center : Point)
    (ring_radii : List ℚ) : Except Err ScoringMetrics :=
  pyTry <|
    if shots.length = 0 ∨ ring_radii.length = 0 then .error .insufficientData
    else
      let shot_scores := shots.map fun s =>
        calculate_shot_score (distXY s.x s.y target_center.x target_center.y) ring_radii
      let hit := shot_scores.foldl
        (fun h score =>
          if score ≤ (ring_radii.length : ℤ) then bump h (score - 1).toNat
          else bump h (h.length - 1))
        (List.replicate (ring_radii.length + 1) 0)
      .ok ⟨shot_scores.sum, meanR (shot_scores.map fun z => (z : ℝ)),
        maxZ shot_scores, minZ shot_scores, stdR (shot_scores.map fun z => (z : ℝ)),
        shot_scores, hit⟩

/-- The common shape of the per-method loops: each `(shot, distance)` pair goes
to the accepted list when the method's predicate holds of its distance and to
the rejected list otherwise, preserving order. -/
def partitionPairs {α : Type} (p : ℝ → Bool) : List (α × ℝ) → List α × List α
  | [] => ([], [])
  | (s, d) :: rest =>
    let pr := partitionPairs p rest
    if p d then (s :: pr.1, pr.2) else (pr.1, s :: pr.2)

/-- Embeds `SOTAMetricsCalculator._detect_flyers_std_dev`: accept shots whose
centroid distance is at most `mean + threshold * std`. -/
noncomputable def detect_flyers_std_dev (shots : List Shot) (threshold : ℚ) :
    List Shot × List Shot :=
  let ds := distancesToCentroid shots
  partitionPairs (fun d => decide (d ≤ meanR ds + (threshold : ℝ) * stdR ds))
    (shots.zip ds)

/-- Embeds `q1` of `_detect_flyers_iqr`: `np.percentile(distances, 25)`. -/
noncomputable def iqrQ1 (shots : List Shot) : ℝ := percentileR (distancesToCentroid shots) 25

/-- Embeds `q3` of `_detect_flyers_iqr`: `np.percentile(distances, 75)`. -/
noncomputable def iqrQ3 (shots : List Shot) : ℝ := percentileR (distancesToCentroid shots) 75

/-- Lower acceptance bound `q1 - threshold * iqr` of `_detect_flyers_iqr`. -/
noncomputable def iqrLo (shots : List Shot) (threshold : ℚ) : ℝ :=
  iqrQ1 shots - (threshold : ℝ) * (iqrQ3 shots - iqrQ1 shots)

/-- Upper acceptance bound `q3 + threshold * iqr` of `_detect_flyers_iqr`. -/
noncomputable def iqrHi (shots : List Shot) (threshold : ℚ) : ℝ :=
  iqrQ3 shots + (threshold : ℝ) * (iqrQ3 shots - iqrQ1 shots)

/-- Embeds `SOTAMetricsCalculator._detect_flyers_iqr`: accept shots whose centroid
distance lies in `[q1 - threshold*iqr, q3 + threshold*iqr]`. -/
noncomputable def detect_flyers_iqr (shots : List Shot) (threshold : ℚ) :
    List Shot × List Shot :=
  let ds := distancesToCentroid shots
  partitionPairs
    (fun d => decide (iqrLo shots threshold ≤ d ∧ d ≤ iqrHi shots threshold))
    (shots.zip ds)

/-- Embeds `SOTAMetricsCalculator._detect_flyers_distance`: accept shots whose
centroid distance is at most `mean_distance * threshold`. -/
noncomputable def detect_flyers_distance (shots : List Shot) (threshold : ℚ) :
    List Shot × List Shot :=
  let ds := distancesToCentroid shots
  partitionPairs (fun d => decide (d ≤ meanR ds * (threshold : ℝ))) (shots.zip ds)

/-- Embeds `SOTAMetricsCalculator._point_to_line_distance`: distance from a point to a
segment, with the projection parameter clamped to `[0, 1]`; a zero-length
segment degenerates to point distance. The arithmetic up to the final square
root is exact rational arithmetic. -/
noncomputable def point_to_line_distance (p a b : ℚ × ℚ) : ℝ :=
  let lv : ℚ × ℚ := (b.1 - a.1, b.2 - a.2)
  let pv : ℚ × ℚ := (p.1 - a.1, p.2 - a.2)
  if lv = (0, 0) then distPP p a
  else
    let t : ℚ := max 0 (min 1 ((pv.1 * lv.1 + pv.2 * lv.2) / (lv.1 * lv.1 + lv.2 * lv.2)))
    distPP p (a.1 + t * lv.1, a.2 + t * lv.2)

/-- Embeds `SOTAMetricsCalculator._distance_to_convex_hull`: minimum over the hull
edges of the point-to-segment distances the nested pair loop produces (for a
2-simplex `[v1, v2]` the loop visits the segments `(v1,v2)`, `(v1,v1)` and
`(v2,v1)`). In Python the minimum starts at `float('inf')`; the hull edge list
is non-empty whenever the hull construction succeeded, and the numeric value is
never used by a claim, so the empty fold start is arbitrary. -/
noncomputable def distance_to_convex_hull (p : ℚ × ℚ)
    (edges : List ((ℚ × ℚ) × (ℚ × ℚ))) : ℝ :=
  minR (edges.map fun e =>
    min (point_to_line_distance p e.1 e.2)
      (min (point_to_line_distance p e.1 e.1) (point_to_line_distance p e.2 e.1)))

/-- Embeds `SOTAMetricsCalculator._detect_flyers_convex_hull`: needs at least 4 shots;
a `QhullError` from `ConvexHull` is caught by the method's own handler, which
returns `(shots, [])`; otherwise accept shots whose hull distance is at most
the threshold. -/
noncomputable def detect_flyers_convex_hull (shots : List Shot) (threshold : ℚ) :
    List Shot × List Shot :=
  if shots.length < 4 then (shots, [])
  else
    match ConvexHullQ (coordsOf shots) with
    | .error _ => (shots, [])
    | .ok edges =>
      partitionPairs (fun d => decide (d ≤ (threshold : ℝ)))
        (shots.zip (shots.map fun s => distance_to_convex_hull (s.x, s.y) edges))

/-- Embeds `SOTAMetricsCalculator.detect_flyers`: fewer than 3 shots, or an unknown
method name, returns `(shots, [])`; otherwise dispatch on the method string.
Every branch of the tried body succeeds (each per-method helper catches its own
internal failures), so the trailing `except` is dead code. -/
noncomputable def detect_flyers (shots : List Shot) (method : String) (threshold : ℚ) :
    Except Err (List Shot × List Shot) :=
  pyTry <|
    if shots.length < 3 then .ok (shots, [])
    else if method = "std_dev" then .ok (detect_flyers_std_dev shots threshold)
    else if method = "iqr" then .ok (detect_flyers_iqr shots threshold)
    else if method = "convex_hull" then .ok (detect_flyers_convex_hull shots threshold)
    else if method = "distance" then .ok (detect_flyers_distance shots threshold)
    else .ok (shots, [])

/-- The ordering step of `calculate_sequential_metrics` (lines 96–101):
`all(shot.timestamp ...)` tests truthiness, and `datetime` objects are always
truthy, so it is a presence test; the sort keys `timestamp or 0` /
`frame_index or 0` reduce to the present values in the branches where they are
used. -/
def sortForSequential (shots : List Shot) : List Shot :=
  if shots.all (fun s => s.timestamp.isSome) then
    shots.mergeSort (fun a b => decide (a.timestamp.getD 0 ≤ b.timestamp.getD 0))
  else if shots.all (fun s => s.frame_index.isSome) then
    shots.mergeSort (fun a b => decide (a.frame_index.getD 0 ≤ b.frame_index.getD 0))
  else shots

/-- Mean of `f 0, ..., f (n-1)`. -/
def meanF (n : ℕ) (f : ℕ → ℚ) : ℚ := (∑ i ∈ Finset.range n, f i) / n

/-- Centred second moment `ss_fg = Σ (f i - mean f) * (g i - mean g)`
over indices `0, ..., n-1`, as in `scipy.stats.linregress`. -/
def ssF (n : ℕ) (f g : ℕ → ℚ) : ℚ :=
  ∑ i ∈ Finset.range n, (f i - meanF n f) * (g i - meanF n g)

/-- Modelled from scipy: the square of `stats.linregress(x, y).rvalue`.
`linregress` sets `r = 0` when either variance vanishes and otherwise computes
`r = ss_xy / sqrt(ss_xx * ss_yy)` clamped to `[-1, 1]`; squaring removes the
square root, so `r²` is exact rational arithmetic. -/
def linregress_r_sq (n : ℕ) (f g : ℕ → ℚ) : ℚ :=
  if ssF n f f = 0 ∨ ssF n g g = 0 then 0
  else min 1 ((ssF n f g) ^ 2 / (ssF n f f * ssF n g g))

/-- Embeds `SOTAMetricsCalculator._calculate_trend_stability`: 1.0 below 3 shots,
otherwise the mean of the two per-axis `r²` values against the shot index,
clamped to be non-negative. -/
def calculate_trend_stability (shots : List Shot) : ℚ :=
  if shots.length < 3 then 1
  else
    let n := shots.length
    let rx := linregress_r_sq n (fun i => (i : ℚ)) (fun i => (shots.getD i default).x)
    let ry := linregress_r_sq n (fun i => (i : ℚ)) (fun i => (shots.getD i default).y)
    max 0 ((rx + ry) / 2)

/-- The sequential-metrics dictionary built by `calculate_sequential_metrics`. -/
structure SequentialMetrics where
  first_shot_displacement : ℝ
  shot_to_shot_displacement : ℝ
  max_shot_displacement : ℝ
  min_shot_displacement : ℝ
  shot_displacement_std : ℝ
  trend_stability : ℚ

/-- The shot-to-shot displacement loop of `calculate_sequential_metrics`: for
each position `i` in `range(1, len(sorted_shots))`, the distance from shot `i`
to the MPI of the shots strictly before it. -/
noncomputable def shotDisplacements (sorted : List Shot) : Except Err (List ℝ) :=
  (List.range' 1 (sorted.length - 1)).mapM (fun i => do
    let pm ← calculate_mean_point_of_impact (sorted.take i)
    pure (distXY (sorted.getD i default).x (sorted.getD i default).y pm.x pm.y))

/-- Embeds `SOTAMetricsCalculator.calculate_sequential_metrics`. -/
noncomputable def calculate_sequential_metrics (shots : List Shot) :
    Except Err SequentialMetrics :=
  pyTry (do
    if shots.length < 2 then throw Err.insufficientData
    let sorted := sortForSequential shots
    let mpi ← calculate_mean_point_of_impact (sorted.drop 1)
    let first := distXY (sorted.headD default).x (sorted.headD default).y mpi.x mpi.y
    let disps ← shotDisplacements sorted
    pure ⟨first,
      if disps.length = 0 then 0 else meanR disps,
      if disps.length = 0 then 0 else maxR disps,
      if disps.length = 0 then 0 else minR disps,
      if disps.length = 0 then 0 else stdR disps,
      calculate_trend_stability sorted⟩)

/-- Embeds `SOTAMetricsCalculator._calculate_circular_error_probable`:
`np.percentile(distances, probability * 100)`. Its own handler returns 0.0 on
failure; the tried body is total here. -/
noncomputable def circular_error_probable (shots : List Shot) (p : ℚ) : ℝ :=
  percentileR (distancesToCentroid shots) (p * 100)

/-- Embeds `SOTAMetricsCalculator._calculate_figure_of_merit`: 0.0 below 3 shots or
when any inner computation fails (its own handler), else
`(extreme_spread / mean_radius) * 100` guarded against a zero mean radius. -/
noncomputable def figure_of_merit (shots : List Shot) : ℝ :=
  if shots.length < 3 then 0
  else
    match calculate_extreme_spread shots, calculate_mean_radius shots none with
    | .ok es, .ok mr => if 0 < mr then es / mr * 100 else 0
    | _, _ => 0

/-- The group-characteristics dictionary built by
`calculate_group_characteristics` (`cep` is present only with ≥ 3 shots). -/
structure GroupCharacteristics where
  total_shots : ℕ
  mpi : Point
  extreme_spread : ℝ
  mean_radius : ℝ
  std_dev_x : ℝ
  std_dev_y : ℝ
  combined_std_dev : ℝ
  cep : Option (ℝ × ℝ × ℝ)
  figure_of_merit : ℝ

/-- Embeds `SOTAMetricsCalculator.calculate_group_characteristics`. -/
noncomputable def calculate_group_characteristics (shots : List Shot) :
    Except Err GroupCharacteristics :=
  pyTry (do
    if shots.length = 0 then throw Err.insufficientData
    let mpi ← calculate_mean_point_of_impact shots
    let es ← calculate_extreme_spread shots
    let mr ← calculate_mean_radius shots (some mpi)
    let sd ← calculate_standard_deviations shots
    pure ⟨shots.length, mpi, es, mr, sd.1, sd.2,
      Real.sqrt (sd.1 ^ 2 + sd.2 ^ 2),
      if 3 ≤ shots.length then
        some (circular_error_probable shots (1 / 2),
          circular_error_probable shots (9 / 10),
          circular_error_probable shots (95 / 100))
      else none,
      figure_of_merit shots⟩)

/-- Embeds `models.SOTAMetrics`: the aggregate report; numeric fields default to zero
when the corresponding optional computation was not attempted. -/
structure SOTAMetrics where
  total_shots : ℕ
  mpi : Option Point
  extreme_spread : ℝ
  mean_radius : ℝ
  convex_hull_area : ℝ
  std_dev_x : ℝ
  std_dev_y : ℝ
  first_shot_displacement : ℝ
  shot_to_shot_displacement : ℝ
  flyer_count : ℕ
  total_score : ℤ
  average_score : ℝ

/-- Embeds `models.ShotGroup`. -/
structure ShotGroup where
  shots : List Shot
  target_center : Option Point
  target_ring_radii : Option (List ℚ)

/-- Embeds `SOTAMetricsCalculator.calculate_comprehensive_sota_metrics`: group
characteristics, then hull area (≥ 3 shots), sequential metrics (≥ 2 shots),
flyer detection with the default method/threshold, and scoring when
`target_center and target_ring_radii` is truthy (an empty radii list is falsy).
All of this sits in one `try`; an error anywhere aborts the whole computation
through the trailing handler. -/
noncomputable def calculate_comprehensive_sota_metrics (g : ShotGroup) :
    Except Err SOTAMetrics :=
  pyTry (do
    if g.shots.length = 0 then throw Err.insufficientData
    let gc ← calculate_group_characteristics g.shots
    let hull ← if 3 ≤ g.shots.length then calculate_convex_hull_area g.shots else pure 0
    let seq ← if 2 ≤ g.shots.length then some <$> calculate_sequential_metrics g.shots
      else pure none
    let fl ← detect_flyers g.shots "std_dev" 2
    let scoring ← match g.target_center, g.target_ring_radii with
      | some c, some radii =>
        if radii.length ≠ 0 then some <$> calculate_scoring_metrics g.shots c radii
        else pure none
      | _, _ => pure none
    pure ⟨g.shots.length, some gc.mpi, gc.extreme_spread, gc.mean_radius, hull,
      gc.std_dev_x, gc.std_dev_y,
      (match seq with | some m => m.first_shot_displacement | none => 0),
      (match seq with | some m => m.shot_to_shot_displacement | none => 0),
      fl.2.length,
      (match scoring with | some sc => sc.total_score | none => 0),
      (match scoring with | some sc => sc.average_score | none => 0)⟩)

/-! ## Helper lemmas -/

theorem pyTry_ok {α : Type} (v : α) : pyTry (.ok v) = .ok v := rfl

theorem pyTry_error {α : Type} (e : Err) : pyTry (α := α) (.error e) = .error .analysisError := rfl

theorem throw_eq {α : Type} (e : Err) : (throw e : Except Err α) = .error e := rfl

theorem degenerate_diag :
    degenerate [((0 : ℚ), (0 : ℚ)), (1, 1), (2, 2), (3, 3)] = true := by
  norm_num [degenerate, cross, List.all_cons]

theorem mpi_ok (shots : List Shot) (h : shots.length ≠ 0) :
    calculate_mean_point_of_impact shots =
      .ok ⟨meanQ (shots.map Shot.x), meanQ (shots.map Shot.y)⟩ := by
  simp [calculate_mean_point_of_impact, pyTry, h]

theorem extreme_spread_ok (shots : List Shot) (h : 2 ≤ shots.length) :
    calculate_extreme_spread shots = .ok (maxR (pdist shots)) := by
  have h2 : ¬ shots.length < 2 := by omega
  simp [calculate_extreme_spread, pyTry, h2]

theorem mapM_ok {α β : Type} (f : α → Except Err β) (l : List α)
    (h : ∀ a ∈ l, ∃ b, f a = .ok b) : ∃ bs, l.mapM f = .ok bs := by
  induction l with
  | nil => exact ⟨[], rfl⟩
  | cons a l ih =>
    obtain ⟨b, hb⟩ := h a (by simp)
    obtain ⟨bs, hbs⟩ := ih (fun a ha => h a (by simp [ha]))
    refine ⟨b :: bs, ?_⟩
    rw [List.mapM_cons, hb, hbs]
    rfl

theorem partitionPairs_length {α : Type} (p : ℝ → Bool) (l : List (α × ℝ)) :
    (partitionPairs p l).1.length + (partitionPairs p l).2.length = l.length := by
  induction l with
  | nil => rfl
  | cons hd tl ih =>
    obtain ⟨s, d⟩ := hd
    simp only [partitionPairs]
    split_ifs <;> simp <;> omega

theorem partitionPairs_mem_fst {α : Type} {p : ℝ → Bool} {l : List (α × ℝ)} {s : α}
    (h : s ∈ (partitionPairs p l).1) : ∃ d, (s, d) ∈ l ∧ p d = true := by
  induction l with
  | nil => simp [partitionPairs] at h
  | cons hd tl ih =>
    obtain ⟨a, d⟩ := hd
    simp only [partitionPairs] at h
    split_ifs at h with hp
    · rcases List.mem_cons.1 h with h1 | h1
      · exact ⟨d, by simp [h1], by simpa [h1] using hp⟩
      · obtain ⟨d', hd', hp'⟩ := ih h1
        exact ⟨d', by simp [hd'], hp'⟩
    · obtain ⟨d', hd', hp'⟩ := ih h
      exact ⟨d', by simp [hd'], hp'⟩

theorem partitionPairs_mem_snd {α : Type} {p : ℝ → Bool} {l : List (α × ℝ)} {s : α}
    (h : s ∈ (partitionPairs p l).2) : ∃ d, (s, d) ∈ l ∧ p d = false := by
  induction l with
  | nil => simp [partitionPairs] at h
  | cons hd tl ih =>
    obtain ⟨a, d⟩ := hd
    simp only [partitionPairs] at h
    split_ifs at h with hp
    · obtain ⟨d', hd', hp'⟩ := ih h
      exact ⟨d', by simp [hd'], hp'⟩
    · rcases List.mem_cons.1 h with h1 | h1
      · refine ⟨d, by simp [h1], ?_⟩
        subst h1
        simpa using hp
      · obtain ⟨d', hd', hp'⟩ := ih h1
        exact ⟨d', by simp [hd'], hp'⟩

theorem zip_map_mem {α : Type} (f : α → ℝ) :
    ∀ {l : List α} {s : α} {d : ℝ}, (s, d) ∈ l.zip (l.map f) → d = f s ∧ s ∈ l := by
  intro l
  induction l with
  | nil => intro s d h; simp at h
  | cons a tl ih =>
    intro s d h
    simp only [List.map_cons, List.zip_cons_cons, List.mem_cons] at h
    rcases h with h | h
    · obtain ⟨h1, h2⟩ := Prod.mk.injEq .. ▸ h
      exact ⟨by simp [h1, h2], by simp [h1]⟩
    · obtain ⟨h1, h2⟩ := ih h
      exact ⟨h1, by simp [h2]⟩

/-! ## Claim C6 -/

/-- C6: for every detection method name and every threshold, calling
`detect_flyers` with fewer than 3 shots returns the whole input as accepted and
an empty rejected list, without raising any error. -/
theorem C6_detect_flyers_low_n (shots : List Shot) (method : String) (threshold : ℚ)
    (h : shots.length < 3) : detect_flyers shots method threshold = .ok (shots, []) := by
  simp [detect_flyers, pyTry, h]

theorem C6_detect_flyers_low_n_witness :
    detect_flyers [⟨0, 0, 0, none, none, 5⟩, ⟨7, 3, 0, none, none, 5⟩] "iqr" 2 =
      .ok ([⟨0, 0, 0, none, none, 5⟩, ⟨7, 3, 0, none, none, 5⟩], []) :=
  C6_detect_flyers_low_n [⟨0, 0, 0, none, none, 5⟩, ⟨7, 3, 0, none, none, 5⟩] "iqr" 2
    (by simp)

/-! ## Claim C7 -/

/-- C7: with at least 3 shots and a method name that is none of the four known
methods, `detect_flyers` fails open: all shots accepted, none rejected, and no
exception. -/
theorem C7_unknown_method_fail_open (shots : List Shot) (method : String) (threshold : ℚ)
    (h3 : 3 ≤ shots.length)
    (h1 : method ≠ "std_dev") (h2 : method ≠ "iqr") (h4 : method ≠ "convex_hull")
    (h5 : method ≠ "distance") :
    detect_flyers shots method threshold = .ok (shots, []) := by
  have hlt : ¬ shots.length < 3 := by omega
  simp [detect_flyers, pyTry, hlt, h1, h2, h4, h5]

theorem C7_unknown_method_fail_open_witness :
    detect_flyers
      [⟨0, 0, 0, none, none, 5⟩, ⟨1, 0, 0, none, none, 5⟩, ⟨0, 1, 0, none, none, 5⟩]
      "invalid_method" 2 =
      .ok ([⟨0, 0, 0, none, none, 5⟩, ⟨1, 0, 0, none, none, 5⟩, ⟨0, 1, 0, none, none, 5⟩],
        []) :=
  C7_unknown_method_fail_open
    [⟨0, 0, 0, none, none, 5⟩, ⟨1, 0, 0, none, none, 5⟩, ⟨0, 1, 0, none, none, 5⟩]
    "invalid_method" 2 (by simp) (by simp) (by simp) (by simp) (by simp)

/-! ## Claim C10 -/

/-- C10: for every shot list, method string and threshold, `detect_flyers`
returns a pair of lists and never raises; in particular the convex-hull
detector catches the library failure on degenerate input (at least 4 collinear
shots) and falls back to all-accepted. -/
theorem C10_detect_flyers_total :
    (∀ (shots : List Shot) (method : String) (threshold : ℚ),
      ∃ p, detect_flyers shots method threshold = .ok p) ∧
    (∀ (shots : List Shot) (threshold : ℚ), 4 ≤ shots.length →
      degenerate (coordsOf shots) = true →
      detect_flyers_convex_hull shots threshold = (shots, [])) := by
  constructor
  · intro shots method threshold
    simp only [detect_flyers]
    split_ifs <;> exact ⟨_, rfl⟩
  · intro shots threshold h4 hdeg
    have hlt : ¬ shots.length < 4 := by omega
    simp [detect_flyers_convex_hull, hlt, ConvexHullQ, hdeg]

theorem C10_detect_flyers_total_witness :
    detect_flyers_convex_hull
      [⟨0, 0, 0, none, none, 5⟩, ⟨1, 1, 0, none, none, 5⟩, ⟨2, 2, 0, none, none, 5⟩,
        ⟨3, 3, 0, none, none, 5⟩] 2 =
      ([⟨0, 0, 0, none, none, 5⟩, ⟨1, 1, 0, none, none, 5⟩, ⟨2, 2, 0, none, none, 5⟩,
        ⟨3, 3, 0, none, none, 5⟩], []) :=
  C10_detect_flyers_total.2
    [⟨0, 0, 0, none, none, 5⟩, ⟨1, 1, 0, none, none, 5⟩, ⟨2, 2, 0, none, none, 5⟩,
      ⟨3, 3, 0, none, none, 5⟩] 2 (by simp)
    (by norm_num [degenerate, cross, coordsOf, List.all_cons])

/-! ## Claim C1 -/

/-- C1 (code bug demonstration): below its stated minimum each statistics
primitive raises, but the error that escapes is `AnalysisError`, not the
`InsufficientDataError` the claim (and the functions' own docstrings and unit
tests) promise — the blanket `except Exception` handler re-wraps it. At the
minimum count each primitive succeeds. -/
theorem C1_wrong_error_kind :
    calculate_extreme_spread [⟨0, 0, 0, none, none, 5⟩] = .error .analysisError ∧
    calculate_confidence_intervals [⟨0, 0, 0, none, none, 5⟩, ⟨1, 0, 0, none, none, 5⟩]
      (95 / 100) = .error .analysisError ∧
    calculate_mean_point_of_impact ([] : List Shot) = .error .analysisError ∧
    calculate_convex_hull_area [⟨0, 0, 0, none, none, 5⟩, ⟨1, 0, 0, none, none, 5⟩] =
      .error .analysisError ∧
    (∃ v, calculate_extreme_spread [⟨0, 0, 0, none, none, 5⟩, ⟨1, 0, 0, none, none, 5⟩] =
      .ok v) ∧
    (∃ v, calculate_confidence_intervals
      [⟨0, 0, 0, none, none, 5⟩, ⟨1, 0, 0, none, none, 5⟩, ⟨0, 1, 0, none, none, 5⟩]
      (95 / 100) = .ok v) ∧
    (∃ v, calculate_mean_point_of_impact [⟨0, 0, 0, none, none, 5⟩] = .ok v) ∧
    (∃ v, calculate_convex_hull_area
      [⟨0, 0, 0, none, none, 5⟩, ⟨1, 0, 0, none, none, 5⟩, ⟨0, 1, 0, none, none, 5⟩] =
      .ok v) := by
  refine ⟨?_, ?_, ?_, ?_, ?_, ?_, ?_, ?_⟩
  · simp [calculate_extreme_spread, pyTry]
  · simp [calculate_confidence_intervals, pyTry]
  · simp [calculate_mean_point_of_impact, pyTry]
  · simp [calculate_convex_hull_area, pyTry, throw_eq, Bind.bind, Except.bind]
  · simp only [calculate_extreme_spread, pyTry]
    norm_num
  · simp only [calculate_confidence_intervals, pyTry]
    norm_num
  · simp [calculate_mean_point_of_impact, pyTry]
  · norm_num [calculate_convex_hull_area, pyTry, ConvexHullQ, coordsOf,
      throw_eq, Bind.bind, Except.bind, pure, Except.pure, degenerate, cross,
      List.all_cons]

/-! ## Claim C4 -/

theorem shotScoreGo_miss (d : ℝ) (n : ℕ) :
    ∀ (l : List ℚ) (i : ℕ), (∀ r ∈ l, ¬ d ≤ (r : ℝ)) → shotScoreGo d n i l = (n : ℤ) + 1 := by
  intro l
  induction l with
  | nil => intro i _; rfl
  | cons r rest ih =>
    intro i h
    simp only [shotScoreGo, if_neg (h r (by simp))]
    exact ih (i + 1) (fun r' hr' => h r' (by simp [hr']))

theorem shotScoreGo_hit (d : ℝ) (n : ℕ) :
    ∀ (l : List ℚ) (i k : ℕ), k < l.length → d ≤ ((l.getD k 0 : ℚ) : ℝ) →
      (∀ j, j < k → ¬ d ≤ ((l.getD j 0 : ℚ) : ℝ)) →
      shotScoreGo d n i l = (n : ℤ) - ((i + k : ℕ) : ℤ) := by
  intro l
  induction l with
  | nil => intro i k hk _ _; simp at hk
  | cons r rest ih =>
    intro i k hk hle hlt
    cases k with
    | zero =>
      simp only [List.getD_cons_zero] at hle
      simp only [shotScoreGo, if_pos hle]
      push_cast
      ring
    | succ k =>
      have h0 : ¬ d ≤ (r : ℝ) := by simpa using hlt 0 (Nat.succ_pos k)
      simp only [shotScoreGo, if_neg h0]
      have hrec := ih (i + 1) k (by simpa using hk) (by simpa using hle)
        (fun j hj => by simpa using hlt (j + 1) (by omega))
      rw [hrec]
      push_cast
      ring

theorem sorted_getD_mono {l : List ℚ} (h : l.Sorted (· ≤ ·)) {j i : ℕ}
    (hji : j < i) (hi : i < l.length) : l.getD j 0 ≤ l.getD i 0 := by
  induction l generalizing j i with
  | nil => simp at hi
  | cons r rest ih =>
    rcases List.sorted_cons.1 h with ⟨hr, hrest⟩
    cases j with
    | zero =>
      obtain ⟨i', rfl⟩ : ∃ i', i = i' + 1 := ⟨i - 1, by omega⟩
      simp only [List.getD_cons_zero, List.getD_cons_succ]
      have hmem : rest.getD i' 0 ∈ rest := by
        rw [List.getD_eq_getElem rest 0 (by simpa using hi)]
        exact List.getElem_mem (by simpa using hi)
      exact hr _ hmem
    | succ j' =>
      obtain ⟨i', rfl⟩ : ∃ i', i = i' + 1 := ⟨i - 1, by omega⟩
      simp only [List.getD_cons_succ]
      exact ih hrest (by omega) (by simpa using hi)

/-- C4: with an ascending `ring_radii`, a point whose distance is exactly
`ring_radii[i]` (with `i` the smallest such index) scores
`len(ring_radii) - i` — the ring boundary is inclusive — and a point strictly
beyond the last radius scores `len(ring_radii) + 1`, a value distinct from
every ring score. -/
theorem C4_scoring_boundary (d : ℝ) (radii : List ℚ) (hsort : radii.Sorted (· ≤ ·)) :
    (∀ i, i < radii.length → d = ((radii.getD i 0 : ℚ) : ℝ) →
      (∀ j, j < i → ((radii.getD j 0 : ℚ) : ℝ) ≠ d) →
      calculate_shot_score d radii = (radii.length : ℤ) - (i : ℤ)) ∧
    ((∀ r ∈ radii, (r : ℝ) < d) →
      calculate_shot_score d radii = (radii.length : ℤ) + 1 ∧
      ∀ i, i < radii.length → ((radii.length : ℤ) + 1) ≠ (radii.length : ℤ) - (i : ℤ)) := by
  constructor
  · intro i hi hd hj
    have hle : d ≤ ((radii.getD i 0 : ℚ) : ℝ) := le_of_eq hd
    have hlt : ∀ j, j < i → ¬ d ≤ ((radii.getD j 0 : ℚ) : ℝ) := by
      intro j hji
      have hij : radii.getD j 0 ≤ radii.getD i 0 := sorted_getD_mono hsort hji hi
      have hlt' : ((radii.getD j 0 : ℚ) : ℝ) < d :=
        lt_of_le_of_ne (by rw [hd]; exact_mod_cast hij) (hj j hji)
      exact not_le.2 hlt'
    have h := shotScoreGo_hit d radii.length radii 0 i hi hle hlt
    simpa [calculate_shot_score] using h
  · intro hgt
    constructor
    · exact shotScoreGo_miss d radii.length radii 0 (fun r hr => not_le.2 (hgt r hr))
    · intro i hi
      omega

theorem C4_scoring_boundary_witness :
    calculate_shot_score (50 : ℝ) [50, 100, 150, 200] = 4 ∧
    calculate_shot_score (250 : ℝ) [50, 100, 150, 200] = 5 := by
  constructor
  · have h := (C4_scoring_boundary (50 : ℝ) [50, 100, 150, 200]
      (by norm_num [List.sorted_cons])).1 0 (by norm_num) (by norm_num)
      (by intro j hj; omega)
    simpa using h
  · have h := ((C4_scoring_boundary (250 : ℝ) [50, 100, 150, 200]
      (by norm_num [List.sorted_cons])).2
      (by intro r hr; fin_cases hr <;> norm_num)).1
    simpa using h

/-! ## Claim C2 -/

theorem mean_radius_some_ok (shots : List Shot) (c : Point) (h : shots.length ≠ 0) :
    calculate_mean_radius shots (some c) =
      .ok (meanR (shots.map (fun s => distXY s.x s.y c.x c.y))) := by
  simp [calculate_mean_radius, pyTry, h, Bind.bind, Except.bind, pure, Except.pure,
    throw_eq]

theorem std_ok (shots : List Shot) (h : shots.length ≠ 0) :
    calculate_standard_deviations shots =
      .ok (Real.sqrt ((varQ (shots.map Shot.x) : ℚ) : ℝ),
        Real.sqrt ((varQ (shots.map Shot.y) : ℚ) : ℝ)) := by
  simp [calculate_standard_deviations, pyTry, h]

theorem group_chars_ok (shots : List Shot) (h2 : 2 ≤ shots.length) :
    ∃ c, calculate_group_characteristics shots = .ok c := by
  have h0 : shots.length ≠ 0 := by omega
  simp only [calculate_group_characteristics, pyTry, h0, mpi_ok shots h0,
    extreme_spread_ok shots h2, mean_radius_some_ok shots ⟨meanQ (shots.map Shot.x),
      meanQ (shots.map Shot.y)⟩ h0, std_ok shots h0,
    Bind.bind, Except.bind, pure, Except.pure, throw_eq, if_false, ite_false]
  exact ⟨_, rfl⟩

theorem hull_area_err (shots : List Shot) (h3 : 3 ≤ shots.length)
    (hdeg : degenerate (coordsOf shots) = true) :
    calculate_convex_hull_area shots = .error .analysisError := by
  have hlt : ¬ shots.length < 3 := by omega
  simp [calculate_convex_hull_area, pyTry, hlt, ConvexHullQ, hdeg, throw_eq,
    Bind.bind, Except.bind, pure, Except.pure]

/-- C2 amended: a failure inside the optional convex-hull sub-computation (at
least 3 shots, all collinear) aborts the whole aggregation with
`AnalysisError`; no partial `SOTAMetrics` is returned. -/
theorem C2_aggregation_aborts (g : ShotGroup) (h3 : 3 ≤ g.shots.length)
    (hdeg : degenerate (coordsOf g.shots) = true) :
    calculate_comprehensive_sota_metrics g = .error .analysisError := by
  obtain ⟨c, hc⟩ := group_chars_ok g.shots (by omega)
  have hhull := hull_area_err g.shots h3 hdeg
  have h0 : ¬ g.shots.length = 0 := by omega
  simp [calculate_comprehensive_sota_metrics, pyTry, h0, hc, h3, hhull,
    Bind.bind, Except.bind, pure, Except.pure, throw_eq]

theorem C2_aggregation_aborts_witness :
    calculate_comprehensive_sota_metrics
      ⟨[⟨0, 0, 0, none, none, 5⟩, ⟨1, 1, 0, none, none, 5⟩, ⟨2, 2, 0, none, none, 5⟩],
        none, none⟩ = .error .analysisError :=
  C2_aggregation_aborts
    ⟨[⟨0, 0, 0, none, none, 5⟩, ⟨1, 1, 0, none, none, 5⟩, ⟨2, 2, 0, none, none, 5⟩],
      none, none⟩ (by simp)
    (by norm_num [degenerate, cross, coordsOf, List.all_cons])

/-- C2 counterexample: a non-empty group of three collinear shots, with no
target data, makes the whole aggregation fail with `AnalysisError` even though
the mandatory MPI succeeds on the same shots — the claim's promised partial
`SOTAMetrics` is not returned. -/
theorem C2_counterexample :
    calculate_comprehensive_sota_metrics
      ⟨[⟨0, 0, 0, none, none, 5⟩, ⟨2, 1, 0, none, none, 5⟩, ⟨4, 2, 0, none, none, 5⟩],
        none, none⟩ = .error .analysisError ∧
    (∃ v, calculate_mean_point_of_impact
      [⟨0, 0, 0, none, none, 5⟩, ⟨2, 1, 0, none, none, 5⟩, ⟨4, 2, 0, none, none, 5⟩] =
      .ok v) := by
  constructor
  · obtain ⟨c, hc⟩ := group_chars_ok
      [⟨0, 0, 0, none, none, 5⟩, ⟨2, 1, 0, none, none, 5⟩, ⟨4, 2, 0, none, none, 5⟩]
      (by simp)
    have hhull := hull_area_err
      [⟨0, 0, 0, none, none, 5⟩, ⟨2, 1, 0, none, none, 5⟩, ⟨4, 2, 0, none, none, 5⟩]
      (by simp) (by norm_num [degenerate, cross, coordsOf, List.all_cons])
    simp [calculate_comprehensive_sota_metrics, pyTry, hc, hhull,
      Bind.bind, Except.bind, pure, Except.pure, throw_eq]
  · simp [calculate_mean_point_of_impact, pyTry]

/-! ## Claim C3 -/

theorem distXY_eval (x1 y1 x2 y2 r : ℚ) (hr : 0 ≤ r)
    (h : (x1 - x2) ^ 2 + (y1 - y2) ^ 2 = r ^ 2) :
    distXY x1 y1 x2 y2 = (r : ℝ) := by
  unfold distXY
  have h' : ((x1 : ℝ) - (x2 : ℝ)) ^ 2 + ((y1 : ℝ) - (y2 : ℝ)) ^ 2 = ((r : ℝ)) ^ 2 := by
    exact_mod_cast h
  rw [h', Real.sqrt_sq (by exact_mod_cast hr)]

/-- C3 (code bug demonstration): the miss value `len(ring_radii) + 1` is the
numerically greatest per-shot score, not the lowest: with rings
`[50, 100, 150, 200]` a missed shot (distance 250) scores 5 while an innermost
hit (distance 10) scores 4, so in the sum and the average a miss counts for
more than a bullseye — contradicting the claim and the code's own
"Miss (lowest score)" comment. -/
theorem C3_miss_not_lowest :
    calculate_shot_score (250 : ℝ) [50, 100, 150, 200] = 5 ∧
    calculate_shot_score (10 : ℝ) [50, 100, 150, 200] = 4 ∧
    (calculate_scoring_metrics [⟨250, 0, 0, none, none, 5⟩] ⟨0, 0⟩
      [50, 100, 150, 200]).map ScoringMetrics.total_score = .ok 5 ∧
    (calculate_scoring_metrics [⟨10, 0, 0, none, none, 5⟩] ⟨0, 0⟩
      [50, 100, 150, 200]).map ScoringMetrics.total_score = .ok 4 ∧
    (calculate_scoring_metrics [⟨250, 0, 0, none, none, 5⟩] ⟨0, 0⟩
      [50, 100, 150, 200]).map ScoringMetrics.average_score = .ok 5 ∧
    (calculate_scoring_metrics [⟨10, 0, 0, none, none, 5⟩] ⟨0, 0⟩
      [50, 100, 150, 200]).map ScoringMetrics.average_score = .ok 4 ∧
    ((4 : ℤ) < 5) := by
  have hd250 : distXY 250 0 0 0 = ((250 : ℚ) : ℝ) :=
    distXY_eval 250 0 0 0 250 (by norm_num) (by norm_num)
  have hd10 : distXY 10 0 0 0 = ((10 : ℚ) : ℝ) :=
    distXY_eval 10 0 0 0 10 (by norm_num) (by norm_num)
  have hs250 : calculate_shot_score (250 : ℝ) [50, 100, 150, 200] = 5 := by
    norm_num [calculate_shot_score, shotScoreGo]
  have hs10 : calculate_shot_score (10 : ℝ) [50, 100, 150, 200] = 4 := by
    norm_num [calculate_shot_score, shotScoreGo]
  have hc250 : ((250 : ℚ) : ℝ) = (250 : ℝ) := by norm_num
  have hc10 : ((10 : ℚ) : ℝ) = (10 : ℝ) := by norm_num
  refine ⟨hs250, hs10, ?_, ?_, ?_, ?_, by norm_num⟩
  all_goals
    norm_num [calculate_scoring_metrics, pyTry, hd250, hd10, hc250, hc10, hs250, hs10,
      meanR, Except.map]

/-! ## Claim C9 -/

theorem meanF_congr (n : ℕ) (f g : ℕ → ℚ) (h : ∀ i < n, f i = g i) :
    meanF n f = meanF n g := by
  unfold meanF
  rw [Finset.sum_congr rfl (fun i hi => h i (Finset.mem_range.1 hi))]

theorem meanF_affine (n : ℕ) (hn : n ≠ 0) (f : ℕ → ℚ) (a b : ℚ) :
    meanF n (fun i => a * f i + b) = a * meanF n f + b := by
  have hn' : (n : ℚ) ≠ 0 := Nat.cast_ne_zero.mpr hn
  unfold meanF
  rw [Finset.sum_add_distrib, ← Finset.mul_sum, Finset.sum_const, Finset.card_range,
    nsmul_eq_mul]
  field_simp
  ring

theorem ssF_affine (n : ℕ) (hn : n ≠ 0) (f g : ℕ → ℚ) (a b : ℚ)
    (hg : ∀ i < n, g i = a * f i + b) :
    ssF n f g = a * ssF n f f := by
  have hm : meanF n g = a * meanF n f + b := by
    rw [meanF_congr n g (fun i => a * f i + b) hg]
    exact meanF_affine n hn f a b
  unfold ssF
  rw [Finset.mul_sum]
  apply Finset.sum_congr rfl
  intro i hi
  rw [hg i (Finset.mem_range.1 hi), hm]
  ring

theorem ssF_affine_self (n : ℕ) (hn : n ≠ 0) (f g : ℕ → ℚ) (a b : ℚ)
    (hg : ∀ i < n, g i = a * f i + b) :
    ssF n g g = a ^ 2 * ssF n f f := by
  have hm : meanF n g = a * meanF n f + b := by
    rw [meanF_congr n g (fun i => a * f i + b) hg]
    exact meanF_affine n hn f a b
  unfold ssF
  rw [Finset.mul_sum]
  apply Finset.sum_congr rfl
  intro i hi
  rw [hg i (Finset.mem_range.1 hi), hm]
  ring

theorem ssF_self_nonneg (n : ℕ) (f : ℕ → ℚ) : 0 ≤ ssF n f f :=
  Finset.sum_nonneg fun _ _ => mul_self_nonneg _

theorem ssF_idx_pos (n : ℕ) (hn : 3 ≤ n) :
    0 < ssF n (fun i => (i : ℚ)) (fun i => (i : ℚ)) := by
  by_contra h
  have hs : ssF n (fun i => (i : ℚ)) (fun i => (i : ℚ)) = 0 :=
    le_antisymm (not_lt.1 h) (ssF_self_nonneg n _)
  unfold ssF at hs
  beta_reduce at hs
  have hall := (Finset.sum_eq_zero_iff_of_nonneg
    (fun (i : ℕ) (_ : i ∈ Finset.range n) =>
      mul_self_nonneg (((i : ℚ)) - meanF n (fun j => (j : ℚ))))).1 hs
  have h0 := mul_self_eq_zero.1 (hall 0 (Finset.mem_range.2 (by omega)))
  have h1 := mul_self_eq_zero.1 (hall 1 (Finset.mem_range.2 (by omega)))
  push_cast at h0 h1
  have hm0 : meanF n (fun i => (i : ℚ)) = 0 := by linarith
  have hm1 : meanF n (fun i => (i : ℚ)) = 1 := by linarith
  rw [hm0] at hm1
  exact absurd hm1 (by norm_num)

theorem r_sq_bounds (n : ℕ) (f g : ℕ → ℚ) :
    0 ≤ linregress_r_sq n f g ∧ linregress_r_sq n f g ≤ 1 := by
  unfold linregress_r_sq
  split_ifs with h
  · norm_num
  · push_neg at h
    obtain ⟨hx, hy⟩ := h
    have hxpos : 0 < ssF n f f := lt_of_le_of_ne (ssF_self_nonneg n f) (Ne.symm hx)
    have hypos : 0 < ssF n g g := lt_of_le_of_ne (ssF_self_nonneg n g) (Ne.symm hy)
    exact ⟨le_min (by norm_num)
      (div_nonneg (sq_nonneg _) (le_of_lt (mul_pos hxpos hypos))), min_le_left _ _⟩

theorem r_sq_one (n : ℕ) (f g : ℕ → ℚ) (a b : ℚ) (ha : a ≠ 0) (hn : n ≠ 0)
    (hg : ∀ i < n, g i = a * f i + b) (hx : ssF n f f ≠ 0) :
    linregress_r_sq n f g = 1 := by
  have hxy := ssF_affine n hn f g a b hg
  have hyy := ssF_affine_self n hn f g a b hg
  unfold linregress_r_sq
  rw [hxy, hyy]
  have hcond : ¬ (ssF n f f = 0 ∨ a ^ 2 * ssF n f f = 0) := by
    push_neg
    exact ⟨hx, mul_ne_zero (pow_ne_zero 2 ha) hx⟩
  rw [if_neg hcond]
  have hval : (a * ssF n f f) ^ 2 / (ssF n f f * (a ^ 2 * ssF n f f)) = 1 := by
    field_simp
    ring
  rw [hval, min_self]

/-- C9 amended: trend stability always lies in `[0, 1]`; it is exactly 1 below
3 shots; and it is exactly 1 for every progression that is affine in the shot
index in both coordinates with a non-zero slope in each (a constant coordinate
progression, though collinear, gets `r = 0` from `linregress` instead — see the
counterexample). -/
theorem C9_trend_stability_bound :
    (∀ shots : List Shot, 0 ≤ calculate_trend_stability shots ∧
      calculate_trend_stability shots ≤ 1) ∧
    (∀ shots : List Shot, shots.length < 3 → calculate_trend_stability shots = 1) ∧
    (∀ (shots : List Shot) (a b c e : ℚ), a ≠ 0 → c ≠ 0 →
      (∀ i < shots.length, (shots.getD i default).x = a * (i : ℚ) + b) →
      (∀ i < shots.length, (shots.getD i default).y = c * (i : ℚ) + e) →
      calculate_trend_stability shots = 1) := by
  refine ⟨?_, ?_, ?_⟩
  · intro shots
    unfold calculate_trend_stability
    split_ifs with h
    · norm_num
    · obtain ⟨hx0, hx1⟩ := r_sq_bounds shots.length (fun i => (i : ℚ))
        (fun i => (shots.getD i default).x)
      obtain ⟨hy0, hy1⟩ := r_sq_bounds shots.length (fun i => (i : ℚ))
        (fun i => (shots.getD i default).y)
      refine ⟨le_max_left 0 _, max_le (by norm_num) (by linarith)⟩
  · intro shots h
    unfold calculate_trend_stability
    rw [if_pos h]
  · intro shots a b c e ha hc hx hy
    unfold calculate_trend_stability
    split_ifs with h
    · rfl
    · push_neg at h
      have hn3 : 3 ≤ shots.length := h
      have hn0 : shots.length ≠ 0 := by omega
      have hidx := ssF_idx_pos shots.length hn3
      have h1 := r_sq_one shots.length (fun i => (i : ℚ))
        (fun i => (shots.getD i default).x) a b ha hn0 hx (ne_of_gt hidx)
      have h2 := r_sq_one shots.length (fun i => (i : ℚ))
        (fun i => (shots.getD i default).y) c e hc hn0 hy (ne_of_gt hidx)
      simp only [h1, h2]
      norm_num

theorem C9_trend_stability_bound_witness :
    calculate_trend_stability
      [⟨0, 0, 0, none, none, 5⟩, ⟨1, 2, 0, none, none, 5⟩, ⟨2, 4, 0, none, none, 5⟩] = 1 ∧
    calculate_trend_stability [⟨0, 0, 0, none, none, 5⟩, ⟨4, 7, 0, none, none, 5⟩] = 1 := by
  constructor
  · exact C9_trend_stability_bound.2.2
      [⟨0, 0, 0, none, none, 5⟩, ⟨1, 2, 0, none, none, 5⟩, ⟨2, 4, 0, none, none, 5⟩]
      1 0 2 0 (by norm_num) (by norm_num)
      (by
        intro i hi
        simp only [List.length_cons, List.length_nil] at hi
        interval_cases i <;> norm_num [List.getD_cons_zero, List.getD_cons_succ])
      (by
        intro i hi
        simp only [List.length_cons, List.length_nil] at hi
        interval_cases i <;> norm_num [List.getD_cons_zero, List.getD_cons_succ])
  · exact C9_trend_stability_bound.2.1
      [⟨0, 0, 0, none, none, 5⟩, ⟨4, 7, 0, none, none, 5⟩] (by simp)

/-- C9 counterexample: three shots on a vertical line, `(5,0), (5,1), (5,2)`,
are perfectly collinear in x-versus-index (slope 0) and in y-versus-index
(slope 1), yet trend stability evaluates to `1/2`, not `1.0`: `linregress`
returns `r = 0` for the constant x progression. -/
theorem C9_counterexample :
    (∀ i < 3, (([⟨5, 0, 0, none, none, 5⟩, ⟨5, 1, 0, none, none, 5⟩,
        ⟨5, 2, 0, none, none, 5⟩] : List Shot).getD i default).x = 0 * (i : ℚ) + 5) ∧
    (∀ i < 3, (([⟨5, 0, 0, none, none, 5⟩, ⟨5, 1, 0, none, none, 5⟩,
        ⟨5, 2, 0, none, none, 5⟩] : List Shot).getD i default).y = 1 * (i : ℚ) + 0) ∧
    calculate_trend_stability
      [⟨5, 0, 0, none, none, 5⟩, ⟨5, 1, 0, none, none, 5⟩, ⟨5, 2, 0, none, none, 5⟩] =
      1 / 2 ∧
    ((1 : ℚ) / 2 ≠ 1) := by
  refine ⟨?_, ?_, ?_, by norm_num⟩
  · intro i hi
    interval_cases i <;> norm_num [List.getD_cons_zero, List.getD_cons_succ]
  · intro i hi
    interval_cases i <;> norm_num [List.getD_cons_zero, List.getD_cons_succ]
  · norm_num [calculate_trend_stability, linregress_r_sq, ssF, meanF,
      Finset.sum_range_succ, Finset.sum_range_zero, List.getD_cons_zero,
      List.getD_cons_succ]

/-! ## Claim C8 -/

theorem sortForSequential_length (shots : List Shot) :
    (sortForSequential shots).length = shots.length := by
  unfold sortForSequential
  split_ifs <;> simp [List.length_mergeSort]

theorem shotDisplacements_ok (sorted : List Shot) (h : 1 ≤ sorted.length) :
    ∃ ds, shotDisplacements sorted = .ok ds := by
  apply mapM_ok
  intro i hi
  obtain ⟨k, hk, hik⟩ := List.mem_range'.1 hi
  have hne : (sorted.take i).length ≠ 0 := by
    simp only [List.length_take]
    omega
  have hmpi := mpi_ok (sorted.take i) hne
  refine ⟨distXY (sorted.getD i default).x (sorted.getD i default).y
    (meanQ ((sorted.take i).map Shot.x)) (meanQ ((sorted.take i).map Shot.y)), ?_⟩
  rw [hmpi]
  rfl

/-- C8: with ≥ 2 shots, the sequential analyzer orders the shots before
computing displacements: if every shot carries a timestamp the result is a
permutation sorted by timestamp; else if every shot carries a frame index it is
a permutation sorted by frame index; otherwise the caller-supplied order is
kept as-is — and in every case the analysis succeeds without error. -/
theorem C8_sequential_ordering (shots : List Shot) (h2 : 2 ≤ shots.length) :
    ((∀ s ∈ shots, s.timestamp.isSome) →
      (sortForSequential shots).Pairwise
        (fun a b => a.timestamp.getD 0 ≤ b.timestamp.getD 0) ∧
      (sortForSequential shots).Perm shots) ∧
    ((¬ ∀ s ∈ shots, s.timestamp.isSome) → (∀ s ∈ shots, s.frame_index.isSome) →
      (sortForSequential shots).Pairwise
        (fun a b => a.frame_index.getD 0 ≤ b.frame_index.getD 0) ∧
      (sortForSequential shots).Perm shots) ∧
    ((¬ ∀ s ∈ shots, s.timestamp.isSome) → (¬ ∀ s ∈ shots, s.frame_index.isSome) →
      sortForSequential shots = shots) ∧
    (∃ m, calculate_sequential_metrics shots = .ok m) := by
  refine ⟨?_, ?_, ?_, ?_⟩
  · intro hts
    have hcond : shots.all (fun s => s.timestamp.isSome) = true :=
      List.all_eq_true.2 (fun s hs => hts s hs)
    unfold sortForSequential
    rw [if_pos hcond]
    constructor
    · have hs := @List.sorted_mergeSort Shot
        (fun a b => decide (a.timestamp.getD 0 ≤ b.timestamp.getD 0))
        (by
          intro a b c hab hbc
          simp only [decide_eq_true_eq] at hab hbc ⊢
          exact le_trans hab hbc)
        (by
          intro a b
          simp only [Bool.or_eq_true, decide_eq_true_eq]
          exact le_total _ _)
        shots
      exact hs.imp (fun hab => of_decide_eq_true hab)
    · exact List.mergeSort_perm shots _
  · intro hts hfr
    have hc1 : ¬ (shots.all (fun s => s.timestamp.isSome) = true) := by
      intro hc
      exact hts (fun s hs => by simpa using List.all_eq_true.1 hc s hs)
    have hcond : shots.all (fun s => s.frame_index.isSome) = true :=
      List.all_eq_true.2 (fun s hs => hfr s hs)
    unfold sortForSequential
    rw [if_neg hc1, if_pos hcond]
    constructor
    · have hs := @List.sorted_mergeSort Shot
        (fun a b => decide (a.frame_index.getD 0 ≤ b.frame_index.getD 0))
        (by
          intro a b c hab hbc
          simp only [decide_eq_true_eq] at hab hbc ⊢
          exact le_trans hab hbc)
        (by
          intro a b
          simp only [Bool.or_eq_true, decide_eq_true_eq]
          exact le_total _ _)
        shots
      exact hs.imp (fun hab => of_decide_eq_true hab)
    · exact List.mergeSort_perm shots _
  · intro hts hfr
    have hc1 : ¬ (shots.all (fun s => s.timestamp.isSome) = true) := by
      intro hc
      exact hts (fun s hs => by simpa using List.all_eq_true.1 hc s hs)
    have hc2 : ¬ (shots.all (fun s => s.frame_index.isSome) = true) := by
      intro hc
      exact hfr (fun s hs => by simpa using List.all_eq_true.1 hc s hs)
    unfold sortForSequential
    rw [if_neg hc1, if_neg hc2]
  · have hlt : ¬ shots.length < 2 := by omega
    have hlen := sortForSequential_length shots
    have hdrop : ((sortForSequential shots).drop 1).length ≠ 0 := by
      simp only [List.length_drop, hlen]
      omega
    have hmpi := mpi_ok ((sortForSequential shots).drop 1) hdrop
    obtain ⟨ds, hds⟩ := shotDisplacements_ok (sortForSequential shots)
      (by rw [hlen]; omega)
    simp only [calculate_sequential_metrics, pyTry, hlt, if_false, ite_false,
      Bind.bind, Except.bind, pure, Except.pure, throw_eq, hmpi, hds]
    exact ⟨_, rfl⟩

theorem C8_sequential_ordering_witness :
    sortForSequential [⟨0, 0, 0, none, none, 5⟩, ⟨3, 4, 0, none, none, 5⟩] =
      [⟨0, 0, 0, none, none, 5⟩, ⟨3, 4, 0, none, none, 5⟩] ∧
    (∃ m, calculate_sequential_metrics
      [⟨0, 0, 0, none, none, 5⟩, ⟨3, 4, 0, none, none, 5⟩] = .ok m) := by
  constructor
  · exact (C8_sequential_ordering
      [⟨0, 0, 0, none, none, 5⟩, ⟨3, 4, 0, none, none, 5⟩] (by simp)).2.2.1
      (by simp) (by simp)
  · exact (C8_sequential_ordering
      [⟨0, 0, 0, none, none, 5⟩, ⟨3, 4, 0, none, none, 5⟩] (by simp)).2.2.2

/-! ## Claim C5 -/

theorem partition_zip_length (p : ℝ → Bool) (shots : List Shot) (f : Shot → ℝ) :
    (partitionPairs p (shots.zip (shots.map f))).1.length +
      (partitionPairs p (shots.zip (shots.map f))).2.length = shots.length := by
  rw [partitionPairs_length]
  simp

theorem partition_zip_fst {p : ℝ → Bool} {shots : List Shot} {f : Shot → ℝ} {s : Shot}
    (h : s ∈ (partitionPairs p (shots.zip (shots.map f))).1) : p (f s) = true := by
  obtain ⟨d, hd, hp⟩ := partitionPairs_mem_fst h
  obtain ⟨hdf, _⟩ := zip_map_mem f hd
  rw [hdf] at hp
  exact hp

theorem partition_zip_snd {p : ℝ → Bool} {shots : List Shot} {f : Shot → ℝ} {s : Shot}
    (h : s ∈ (partitionPairs p (shots.zip (shots.map f))).2) : p (f s) = false := by
  obtain ⟨d, hd, hp⟩ := partitionPairs_mem_snd h
  obtain ⟨hdf, _⟩ := zip_map_mem f hd
  rw [hdf] at hp
  exact hp

/-- C5 amended: for every method and every input of ≥ 3 points the result is a
partition of the input (`len(accepted) + len(rejected) = len(input)`); for the
deviation-based, ratio-based and hull-based methods every rejected point's
distance metric strictly exceeds every accepted point's (boundary accepted);
for the quartile (IQR) method every accepted metric lies inside the closed
acceptance interval and every rejected metric lies strictly outside it — which
may be strictly *below* every accepted metric, not above it (see the
counterexample). -/
theorem C5_outlier_partition (shots : List Shot) (t : ℚ) (h3 : 3 ≤ shots.length) :
    (detect_flyers shots "std_dev" t = .ok (detect_flyers_std_dev shots t) ∧
      (detect_flyers_std_dev shots t).1.length +
        (detect_flyers_std_dev shots t).2.length = shots.length ∧
      ∀ x ∈ (detect_flyers_std_dev shots t).2, ∀ a ∈ (detect_flyers_std_dev shots t).1,
        centroidDistance shots a < centroidDistance shots x) ∧
    (detect_flyers shots "distance" t = .ok (detect_flyers_distance shots t) ∧
      (detect_flyers_distance shots t).1.length +
        (detect_flyers_distance shots t).2.length = shots.length ∧
      ∀ x ∈ (detect_flyers_distance shots t).2, ∀ a ∈ (detect_flyers_distance shots t).1,
        centroidDistance shots a < centroidDistance shots x) ∧
    (detect_flyers shots "iqr" t = .ok (detect_flyers_iqr shots t) ∧
      (detect_flyers_iqr shots t).1.length +
        (detect_flyers_iqr shots t).2.length = shots.length ∧
      (∀ a ∈ (detect_flyers_iqr shots t).1,
        iqrLo shots t ≤ centroidDistance shots a ∧
        centroidDistance shots a ≤ iqrHi shots t) ∧
      (∀ x ∈ (detect_flyers_iqr shots t).2,
        centroidDistance shots x < iqrLo shots t ∨
        iqrHi shots t < centroidDistance shots x)) ∧
    (detect_flyers shots "convex_hull" t = .ok (detect_flyers_convex_hull shots t) ∧
      (detect_flyers_convex_hull shots t).1.length +
        (detect_flyers_convex_hull shots t).2.length = shots.length ∧
      ∀ edges, ConvexHullQ (coordsOf shots) = .ok edges →
        ∀ x ∈ (detect_flyers_convex_hull shots t).2,
        ∀ a ∈ (detect_flyers_convex_hull shots t).1,
          distance_to_convex_hull (a.x, a.y) edges <
            distance_to_convex_hull (x.x, x.y) edges) := by
  have hlt : ¬ shots.length < 3 := by omega
  have hne1 : ("iqr" : String) ≠ "std_dev" := by decide
  have hne2 : ("convex_hull" : String) ≠ "std_dev" := by decide
  have hne3 : ("convex_hull" : String) ≠ "iqr" := by decide
  have hne4 : ("distance" : String) ≠ "std_dev" := by decide
  have hne5 : ("distance" : String) ≠ "iqr" := by decide
  have hne6 : ("distance" : String) ≠ "convex_hull" := by decide
  refine ⟨⟨?_, ?_, ?_⟩, ⟨?_, ?_, ?_⟩, ⟨?_, ?_, ?_, ?_⟩, ⟨?_, ?_, ?_⟩⟩
  · simp [detect_flyers, pyTry, hlt]
  · simp only [detect_flyers_std_dev, distancesToCentroid]
    exact partition_zip_length _ shots _
  · intro x hx a ha
    simp only [detect_flyers_std_dev, distancesToCentroid] at hx ha
    have hpx := partition_zip_snd hx
    have hpa := partition_zip_fst ha
    rw [decide_eq_true_eq] at hpa
    rw [decide_eq_false_iff_not] at hpx
    push_neg at hpx
    linarith
  · simp [detect_flyers, pyTry, hlt, hne4, hne5, hne6]
  · simp only [detect_flyers_distance, distancesToCentroid]
    exact partition_zip_length _ shots _
  · intro x hx a ha
    simp only [detect_flyers_distance, distancesToCentroid] at hx ha
    have hpx := partition_zip_snd hx
    have hpa := partition_zip_fst ha
    rw [decide_eq_true_eq] at hpa
    rw [decide_eq_false_iff_not] at hpx
    push_neg at hpx
    linarith
  · simp [detect_flyers, pyTry, hlt, hne1]
  · simp only [detect_flyers_iqr, distancesToCentroid]
    exact partition_zip_length _ shots _
  · intro a ha
    simp only [detect_flyers_iqr, distancesToCentroid] at ha
    have hpa := partition_zip_fst ha
    rwa [decide_eq_true_eq] at hpa
  · intro x hx
    simp only [detect_flyers_iqr, distancesToCentroid] at hx
    have hpx := partition_zip_snd hx
    rw [decide_eq_false_iff_not] at hpx
    rw [not_and_or] at hpx
    rcases hpx with h | h
    · exact Or.inl (not_le.1 h)
    · exact Or.inr (not_le.1 h)
  · simp [detect_flyers, pyTry, hlt, hne2, hne3]
  · by_cases h4 : shots.length < 4
    · simp [detect_flyers_convex_hull, h4]
    · cases hh : ConvexHullQ (coordsOf shots) with
      | error e =>
        simp [detect_flyers_convex_hull, h4, hh]
      | ok edges0 =>
        simp only [detect_flyers_convex_hull, h4, hh, if_false, ite_false]
        exact partition_zip_length _ shots _
  · intro edges hok x hx a ha
    by_cases h4 : shots.length < 4
    · simp [detect_flyers_convex_hull, h4] at hx
    · cases hh : ConvexHullQ (coordsOf shots) with
      | error e =>
        simp [detect_flyers_convex_hull, h4, hh] at hx
      | ok edges0 =>
        have hedges : edges0 = edges := by
          rw [hh] at hok
          exact Except.ok.inj hok
        subst hedges
        simp only [detect_flyers_convex_hull, h4, hh, if_false, ite_false] at hx ha
        have hpx := partition_zip_snd hx
        have hpa := partition_zip_fst ha
        rw [decide_eq_true_eq] at hpa
        rw [decide_eq_false_iff_not] at hpx
        push_neg at hpx
        linarith

theorem C5_outlier_partition_witness :
    detect_flyers [⟨0, 0, 0, none, none, 5⟩, ⟨6, 0, 0, none, none, 5⟩,
        ⟨0, 6, 0, none, none, 5⟩] "std_dev" 2 =
      .ok (detect_flyers_std_dev [⟨0, 0, 0, none, none, 5⟩, ⟨6, 0, 0, none, none, 5⟩,
        ⟨0, 6, 0, none, none, 5⟩] 2) :=
  (C5_outlier_partition [⟨0, 0, 0, none, none, 5⟩, ⟨6, 0, 0, none, none, 5⟩,
    ⟨0, 6, 0, none, none, 5⟩] 2 (by simp)).1.1

/-- C5 counterexample: five shots — four at distance 10 from their centroid and
one exactly at it. With the IQR method (`threshold = 2.0`, the engine default)
`q1 = q3 = 10`, so the acceptance interval collapses to `[10, 10]`: the center
shot is rejected from *below*, and its distance metric (0) is smaller, not
greater, than every accepted shot's metric (10). -/
theorem C5_counterexample :
    detect_flyers
      [⟨10, 0, 0, none, none, 5⟩, ⟨-10, 0, 0, none, none, 5⟩, ⟨0, 10, 0, none, none, 5⟩,
        ⟨0, -10, 0, none, none, 5⟩, ⟨0, 0, 0, none, none, 5⟩] "iqr" 2 =
      .ok ([⟨10, 0, 0, none, none, 5⟩, ⟨-10, 0, 0, none, none, 5⟩,
        ⟨0, 10, 0, none, none, 5⟩, ⟨0, -10, 0, none, none, 5⟩],
        [⟨0, 0, 0, none, none, 5⟩]) ∧
    centroidDistance
      [⟨10, 0, 0, none, none, 5⟩, ⟨-10, 0, 0, none, none, 5⟩, ⟨0, 10, 0, none, none, 5⟩,
        ⟨0, -10, 0, none, none, 5⟩, ⟨0, 0, 0, none, none, 5⟩] ⟨0, 0, 0, none, none, 5⟩ <
    centroidDistance
      [⟨10, 0, 0, none, none, 5⟩, ⟨-10, 0, 0, none, none, 5⟩, ⟨0, 10, 0, none, none, 5⟩,
        ⟨0, -10, 0, none, none, 5⟩, ⟨0, 0, 0, none, none, 5⟩] ⟨10, 0, 0, none, none, 5⟩ := by
  set L : List Shot :=
    [⟨10, 0, 0, none, none, 5⟩, ⟨-10, 0, 0, none, none, 5⟩, ⟨0, 10, 0, none, none, 5⟩,
      ⟨0, -10, 0, none, none, 5⟩, ⟨0, 0, 0, none, none, 5⟩] with hL
  have hcent : centroid L = (0, 0) := by
    rw [hL]
    norm_num [centroid, meanQ]
  have hd1 : centroidDistance L ⟨10, 0, 0, none, none, 5⟩ = 10 := by
    simp only [centroidDistance, hcent]
    rw [show distXY (10 : ℚ) 0 ((0 : ℚ), (0 : ℚ)).1 ((0 : ℚ), (0 : ℚ)).2 =
      distXY 10 0 0 0 from rfl]
    rw [distXY_eval 10 0 0 0 10 (by norm_num) (by norm_num)]
    norm_num
  have hd2 : centroidDistance L ⟨-10, 0, 0, none, none, 5⟩ = 10 := by
    simp only [centroidDistance, hcent]
    rw [show distXY (-10 : ℚ) 0 ((0 : ℚ), (0 : ℚ)).1 ((0 : ℚ), (0 : ℚ)).2 =
      distXY (-10) 0 0 0 from rfl]
    rw [distXY_eval (-10) 0 0 0 10 (by norm_num) (by norm_num)]
    norm_num
  have hd3 : centroidDistance L ⟨0, 10, 0, none, none, 5⟩ = 10 := by
    simp only [centroidDistance, hcent]
    rw [show distXY (0 : ℚ) 10 ((0 : ℚ), (0 : ℚ)).1 ((0 : ℚ), (0 : ℚ)).2 =
      distXY 0 10 0 0 from rfl]
    rw [distXY_eval 0 10 0 0 10 (by norm_num) (by norm_num)]
    norm_num
  have hd4 : centroidDistance L ⟨0, -10, 0, none, none, 5⟩ = 10 := by
    simp only [centroidDistance, hcent]
    rw [show distXY (0 : ℚ) (-10) ((0 : ℚ), (0 : ℚ)).1 ((0 : ℚ), (0 : ℚ)).2 =
      distXY 0 (-10) 0 0 from rfl]
    rw [distXY_eval 0 (-10) 0 0 10 (by norm_num) (by norm_num)]
    norm_num
  have hd5 : centroidDistance L ⟨0, 0, 0, none, none, 5⟩ = 0 := by
    simp only [centroidDistance, hcent]
    rw [show distXY (0 : ℚ) 0 ((0 : ℚ), (0 : ℚ)).1 ((0 : ℚ), (0 : ℚ)).2 =
      distXY 0 0 0 0 from rfl]
    rw [distXY_eval 0 0 0 0 0 (by norm_num) (by norm_num)]
    norm_num
  have hds : distancesToCentroid L = [10, 10, 10, 10, 0] := by
    rw [distancesToCentroid]
    conv_lhs =>
      arg 2
      rw [hL]
    simp only [List.map_cons, List.map_nil, hd1, hd2, hd3, hd4, hd5]
  have hsort : sortR [(10 : ℝ), 10, 10, 10, 0] = [0, 10, 10, 10, 10] := by
    have hperm : ([(10 : ℝ), 10, 10, 10, 0]).Perm [0, 10, 10, 10, 10] :=
      (show ([(10 : ℝ), 10, 10, 10] ++ [0]).Perm ([0] ++ [10, 10, 10, 10]) from
        List.perm_append_comm)
    have h1 : (sortR [(10 : ℝ), 10, 10, 10, 0]).Perm [0, 10, 10, 10, 10] :=
      (List.mergeSort_perm _ _).trans hperm
    have hs1 : List.Sorted (· ≤ ·) (sortR [(10 : ℝ), 10, 10, 10, 0]) := by
      have hs := @List.sorted_mergeSort ℝ (fun a b => decide (a ≤ b))
        (by
          intro a b c hab hbc
          simp only [decide_eq_true_eq] at hab hbc ⊢
          exact le_trans hab hbc)
        (by
          intro a b
          simp only [Bool.or_eq_true, decide_eq_true_eq]
          exact le_total _ _)
        [(10 : ℝ), 10, 10, 10, 0]
      exact hs.imp (fun hab => of_decide_eq_true hab)
    have hs2 : List.Sorted (· ≤ ·) [(0 : ℝ), 10, 10, 10, 10] := by
      norm_num [List.sorted_cons]
    exact List.eq_of_perm_of_sorted h1 hs1 hs2
  have hq1 : iqrQ1 L = 10 := by
    rw [iqrQ1, hds]
    simp only [percentileR, hsort]
    norm_num [List.length_cons, List.getD_cons_zero, List.getD_cons_succ]
    try rfl
  have hq3 : iqrQ3 L = 10 := by
    rw [iqrQ3, hds]
    simp only [percentileR, hsort]
    norm_num [List.length_cons, List.getD_cons_zero, List.getD_cons_succ]
    try rfl
  have hlo : iqrLo L 2 = 10 := by
    rw [iqrLo, hq1, hq3]
    norm_num
  have hhi : iqrHi L 2 = 10 := by
    rw [iqrHi, hq1, hq3]
    norm_num
  have hdet : detect_flyers_iqr L 2 =
      ([⟨10, 0, 0, none, none, 5⟩, ⟨-10, 0, 0, none, none, 5⟩, ⟨0, 10, 0, none, none, 5⟩,
        ⟨0, -10, 0, none, none, 5⟩], [⟨0, 0, 0, none, none, 5⟩]) := by
    rw [detect_flyers_iqr]
    rw [hds, hL]
    simp only [List.zip_cons_cons, List.zip_nil_right, ← hL]
    norm_num [partitionPairs, hlo, hhi, decide_eq_true_eq]
  have hlt : ¬ L.length < 3 := by
    rw [hL]
    norm_num
  have hne1 : ("iqr" : String) ≠ "std_dev" := by decide
  refine ⟨?_, ?_⟩
  · rw [show detect_flyers L "iqr" 2 = .ok (detect_flyers_iqr L 2) from by
      simp [detect_flyers, pyTry, hlt, hne1]]
    rw [hdet]
  · rw [hd5, hd1]
    norm_num

end GMS
